import Mathlib

/-!
# v8go: the C-callable boundary layer over the V8 engine

A shallow embedding of `v8go.cc` / `v8go.h`.  The script engine itself (compiler,
interpreter, object model) is an external collaborator: every engine primitive whose
result the boundary code cannot determine is a field of `Engine`, an oracle giving the
answer of that primitive.  The boundary code is translated function by function; each
translated function returns an `Exec`, the list of engine operations it performed
together with its outcome.
-/

namespace V8go

/-! ## Bytes and C strings -/

/-- Byte sequences: the contents of a `char` buffer, without its terminating NUL. -/
abbrev Bytes := List UInt8

/-- A `const char*` result: `none` is `nullptr`, `some b` points at the bytes `b`
followed by a terminating NUL. -/
abbrev CharPtr := Option Bytes

/-- The bytes of an ASCII string literal of the source. -/
def ascii (s : String) : Bytes := s.toList.map (fun c => UInt8.ofNat c.toNat)

/-- The UTF-8 encoding of a text. -/
def utf8 (s : String) : Bytes := s.toList.flatMap String.utf8EncodeChar

/-- Reading a `char*` buffer as a C string: the bytes before the first NUL.  This is
what `std::string(const char*)` and `ostream << const char*` see. -/
def cText (buf : Bytes) : Bytes := buf.takeWhile (fun b => b != 0)

/-- Decimal rendering of an `int`, as `ostream << int` writes it. -/
def decimal (n : Int) : Bytes := ascii (toString n)

/-- Reduction of an integer to the range of a 32-bit `int` (wrap-around). -/
def wrapInt32 (x : Int) : Int := (x + 2147483648) % 4294967296 - 2147483648

/-! ## Engine values and handles -/

/-- An engine number: a double given by its bit pattern, or the double obtained by
converting a 64-bit integer (`double(val.Int64)`). -/
inductive JsNumber where
  | float64 (bits : Nat)
  | ofInt64 (i : Int)
  deriving DecidableEq

/-- Engine-resident values.  A string is represented by its UTF-8 encoding. -/
inductive JsValue where
  | undefined
  | null
  | boolean (b : Bool)
  | number (n : JsNumber)
  | string (utf8 : Bytes)
  | symbol (ref : Nat)
  | object (ref : Nat)
  | function (ref : Nat)
  deriving DecidableEq

/-- The test `v8::Value::IsObject`: functions are objects. -/
def JsValue.IsObject : JsValue → Bool
  | .object _ => true
  | .function _ => true
  | _ => false

/-- The test `v8::Value::IsFunction`. -/
def JsValue.IsFunction : JsValue → Bool
  | .function _ => true
  | _ => false

/-- The struct `m_ctx`: a persistent context reference and its isolate. -/
structure m_ctx where
  ptr : Nat
  iso : Nat
  deriving DecidableEq

/-- The struct `m_value`: a persistent value reference and its owning context. -/
structure m_value where
  ptr : JsValue
  ctx_ptr : m_ctx
  deriving DecidableEq

/-- An `IsolatePtr`: `none` is the null pointer. -/
abbrev IsolatePtr := Option Nat

/-- A `ContextPtr`: `none` is the null pointer. -/
abbrev ContextPtr := Option m_ctx

/-- A `ValuePtr`: `none` is the null pointer. -/
abbrev ValuePtr := Option m_value

/-- The struct `RtnError` of `v8go.h`. -/
structure RtnError where
  msg : CharPtr
  location : CharPtr
  stack : CharPtr
  deriving DecidableEq

/-- The struct `RtnValue` of `v8go.h`. -/
structure RtnValue where
  value : ValuePtr
  error : RtnError
  deriving DecidableEq

/-- The struct `IsolateHStatistics` of `v8go.h`. -/
structure IsolateHStatistics where
  total_heap_size : Nat
  total_heap_size_executable : Nat
  total_physical_size : Nat
  total_available_size : Nat
  used_heap_size : Nat
  heap_size_limit : Nat
  malloced_memory : Nat
  external_memory : Nat
  peak_malloced_memory : Nat
  number_of_native_contexts : Nat
  number_of_detached_contexts : Nat
  deriving DecidableEq

/-- The enum `ValueType` of `v8go.h`. -/
inductive ValueType where
  | tSTRING
  | tBOOL
  | tFLOAT64
  | tINT64
  | tUNDEFINED
  deriving DecidableEq

/-- The struct `Value` of `v8go.h`: a tagged primitive supplied by the caller (the
fields `Type` and `Bool` are written `Type_` and `Bool_`). -/
structure Value where
  Type_ : ValueType
  Data : Bytes
  Len : Int
  Bool_ : Int
  Float64 : Nat
  Int64 : Int
  deriving DecidableEq

/-! ## The exception-capture scope -/

/-- A `v8::Message`: what the diagnostic message object answers. -/
structure Message where
  resourceName : Option JsValue
  lineNumber : Option Int
  startColumn : Option Int
  deriving DecidableEq

/-- The state of a `v8::TryCatch` after an engine operation: whether execution was
terminated, the caught exception (an empty handle when none), the message object (an
empty handle when none) and the stack trace (an empty `MaybeLocal` when none). -/
structure TryCatch where
  hasTerminated : Bool
  exception : Option JsValue
  message : Option Message
  stackTrace : Option JsValue
  deriving DecidableEq

/-- The outcome of an engine operation returning `MaybeLocal<T>` or `Maybe<T>`: the
result (`none` when empty) and the state it leaves in the capture scope. -/
structure Attempt (α : Type) where
  result : Option α
  caught : TryCatch

/-- The engine as seen through the primitives the boundary code calls. -/
structure Engine where
  /-- String coercion of a non-string value (`v8::Value::ToString`); `none` when it
  throws. -/
  ToString : JsValue → Option Bytes
  /-- The primitive `v8::Script::Compile` on a source and an origin label; a script is
  named by a number. -/
  Compile : m_ctx → JsValue → JsValue → Attempt Nat
  /-- The primitive `v8::Script::Run`. -/
  Run : m_ctx → Nat → Attempt JsValue
  /-- The primitive `v8::Context::Global`. -/
  Global : m_ctx → JsValue
  /-- The primitive `v8::Object::Get` on an object and a key. -/
  Get : m_ctx → JsValue → JsValue → Attempt JsValue
  /-- The primitive `v8::Object::Set` on an object, a key and a value. -/
  Set : m_ctx → JsValue → JsValue → JsValue → Attempt Bool
  /-- The primitive `v8::Function::Call` on a function, a receiver and arguments. -/
  Call : m_ctx → JsValue → JsValue → List JsValue → Attempt JsValue
  /-- The primitive `v8::Isolate::GetHeapStatistics`. -/
  GetHeapStatistics : Nat → IsolateHStatistics

/-! ## Executions -/

/-- The engine operations a boundary function performs, in order. -/
inductive EngineCall where
  | isolateScope (iso : Nat)
  | contextScope (ctx : m_ctx)
  | hasTerminated
  | exception
  | message
  | resourceName
  | getLineNumber
  | getStartColumn
  | stackTrace
  | compile (ctx : m_ctx) (src ogn : JsValue)
  | run (ctx : m_ctx) (script : Nat)
  | global (ctx : m_ctx)
  | get (ctx : m_ctx) (object key : JsValue)
  | set (ctx : m_ctx) (object key value : JsValue)
  | call (ctx : m_ctx) (func self : JsValue) (argv : List JsValue)
  | isolateDispose (iso : Nat)
  | getHeapStatistics (iso : Nat)
  | contextReset (ctx : m_ctx)
  | deleteContext (ctx : m_ctx)
  | deleteValue (val : m_value)
  deriving DecidableEq

/-- How a call ends: it returns a result; or the process is aborted by a fatal check
(a checked unwrap of an empty engine handle, an uncaught C++ exception); or the
behaviour of the C++ code is undefined. -/
inductive Outcome (α : Type) where
  | returned (a : α)
  | fatal
  | undefined
  deriving DecidableEq

/-- The result of a returned outcome transformed by `f`; the other outcomes are kept. -/
def Outcome.map {α β : Type} (f : α → β) : Outcome α → Outcome β
  | .returned a => .returned (f a)
  | .fatal => .fatal
  | .undefined => .undefined

/-- The operations that only enter the isolate scope or query the capture scope. -/
def EngineCall.isCaptureRead : EngineCall → Bool
  | .isolateScope _ => true
  | .hasTerminated => true
  | .exception => true
  | .message => true
  | .resourceName => true
  | .getLineNumber => true
  | .getStartColumn => true
  | .stackTrace => true
  | _ => false

/-- The operation is an invocation of a function (`v8::Function::Call`). -/
def EngineCall.isInvocation : EngineCall → Bool
  | .call _ _ _ _ => true
  | _ => false

/-- An execution: the engine operations performed and how the call ended. -/
structure Exec (α : Type) where
  calls : List EngineCall
  outcome : Outcome α

/-- Sequencing: the second part runs only when the first returned. -/
def Exec.andThen {α β : Type} (x : Exec α) (f : α → Exec β) : Exec β :=
  match x.outcome with
  | .returned a => ⟨x.calls ++ (f a).calls, (f a).outcome⟩
  | .fatal => ⟨x.calls, .fatal⟩
  | .undefined => ⟨x.calls, .undefined⟩

instance : Monad Exec where
  pure a := ⟨[], .returned a⟩
  bind := Exec.andThen

/-- Performing one engine operation that yields `a`. -/
def perform {α : Type} (c : EngineCall) (a : α) : Exec α := ⟨[c], .returned a⟩

/-- The fatal-error path: the process aborts. -/
def fatal {α : Type} : Exec α := ⟨[], .fatal⟩

/-- Undefined behaviour of the C++ code. -/
def undefinedBehaviour {α : Type} : Exec α := ⟨[], .undefined⟩

/-- The checked unwrap `MaybeLocal<T>::ToLocalChecked` (also `Maybe<T>::ToChecked`):
on an empty handle the engine reports a fatal error and the process aborts. -/
def ToLocalChecked {α : Type} : Option α → Exec α
  | some a => pure a
  | none => fatal

/-! ## Strings crossing the boundary -/

/-- A `v8::String::Utf8Value`: `str` is what `operator*` returns, a null pointer or the
converted text (which may contain NUL bytes); `length()` is the length of that text. -/
structure Utf8Value where
  str : Option Bytes
  deriving DecidableEq

/-- The member `Utf8Value::length()`: zero when the buffer is null. -/
def Utf8Value.length (value : Utf8Value) : Nat :=
  match value.str with
  | some buf => buf.length
  | none => 0

/-- The constructor `Utf8Value(isolate, obj)`: an empty handle, or a value whose string
coercion throws, leaves the buffer null; a string yields its UTF-8 encoding. -/
def Utf8Value.ofValue (eng : Engine) : Option JsValue → Utf8Value
  | none => ⟨none⟩
  | some (.string b) => ⟨some b⟩
  | some v => ⟨eng.ToString v⟩

/-- The primitive `v8::String::NewFromUtf8(isolate, data, type, length)`: a negative
`length` (the default, -1) means the text ends at the first NUL, otherwise exactly
`length` bytes are taken.  For valid UTF-8 input the string created has exactly these
bytes as its encoding.  Lengths beyond the string length limit of the engine, for which
the engine returns an empty handle, are outside this model. -/
def NewFromUtf8 (data : Bytes) (length : Int) : Option JsValue :=
  some (.string (if length < 0 then cText data else data.take length.toNat))

/-- The conversion `v8::Value::ToObject` on an object value, the only case in which the
boundary code applies it: the object itself. -/
def ToObject (v : JsValue) : Option JsValue :=
  if v.IsObject then some v else none

/-- The function `CopyString(std::string str)`: a fresh buffer holding the `str.length()`
bytes of `str` and a terminating NUL; never null. -/
def CopyString (str : Bytes) : CharPtr := some str

/-- The function `CopyString(v8::String::Utf8Value& value)`: null when `length()` is
zero, otherwise `CopyString(*value)`, where the `char*` becomes a `std::string` by the
converting constructor, which reads up to the first NUL. -/
def CopyStringUtf8Value (value : Utf8Value) : CharPtr :=
  if value.length = 0 then none
  else
    match value.str with
    | some buf => CopyString (cText buf)
    | none => none

/-! ## The exception marshaler -/

/-- The message of a terminated execution. -/
def terminatedMsg : Bytes := ascii "ExecutionTerminated: script execution has been terminated"

/-- The location part of `ExceptionError` (lines 67-84): `sb << *origin`, then the line
and column suffixes, then `CopyString(sb.str())`.  Inserting a null `char*` into a
stream is undefined behaviour. -/
def ExceptionLocation (eng : Engine) (try_catch : TryCatch) : Exec CharPtr := do
  let msg ← perform .message try_catch.message
  match msg with
  | none => pure none
  | some m => do
    let name ← perform .resourceName m.resourceName
    let origin := Utf8Value.ofValue eng name
    let sb ← (match origin.str with
      | some buf => pure (cText buf)
      | none => undefinedBehaviour : Exec Bytes)
    let _ ← perform .message try_catch.message
    let line ← perform .getLineNumber m.lineNumber
    let sb := (match line with
      | some l => sb ++ ascii ":" ++ decimal l
      | none => sb)
    let _ ← perform .message try_catch.message
    let start ← perform .getStartColumn m.startColumn
    let sb := (match start with
      | some c => sb ++ ascii ":" ++ decimal (wrapInt32 (c + 1))
      | none => sb)
    pure (CopyString sb)

/-- The function `ExceptionError(try_catch, iso, ctx)`. -/
def ExceptionError (eng : Engine) (try_catch : TryCatch) (iso : Nat) (_ctx : m_ctx) :
    Exec RtnError := do
  perform (.isolateScope iso) ()
  let terminated ← perform .hasTerminated try_catch.hasTerminated
  if terminated then
    pure { msg := CopyString terminatedMsg, location := none, stack := none }
  else do
    let exc ← perform .exception try_catch.exception
    let exception := Utf8Value.ofValue eng exc
    let rtn_msg := CopyStringUtf8Value exception
    let rtn_location ← ExceptionLocation eng try_catch
    let mstack ← perform .stackTrace try_catch.stackTrace
    let rtn_stack := (match mstack with
      | some st => CopyStringUtf8Value (Utf8Value.ofValue eng (some st))
      | none => none)
    pure { msg := rtn_msg, location := rtn_location, stack := rtn_stack }

/-! ## Isolates -/

/-- The function `IsolateDispose(ptr)`. -/
def IsolateDispose (ptr : IsolatePtr) : Exec Unit :=
  match ptr with
  | none => pure ()
  | some isolate => perform (.isolateDispose isolate) ()

/-- The function `IsolationGetHeapStatistics(ptr)`. -/
def IsolationGetHeapStatistics (eng : Engine) (ptr : IsolatePtr) : Exec IsolateHStatistics :=
  match ptr with
  | none => pure ⟨0, 0, 0, 0, 0, 0, 0, 0, 0, 0, 0⟩
  | some isolate => do
    let hs ← perform (.getHeapStatistics isolate) (eng.GetHeapStatistics isolate)
    pure {
      total_heap_size := hs.total_heap_size
      total_heap_size_executable := hs.total_heap_size_executable
      total_physical_size := hs.total_physical_size
      total_available_size := hs.total_available_size
      used_heap_size := hs.used_heap_size
      heap_size_limit := hs.heap_size_limit
      malloced_memory := hs.malloced_memory
      external_memory := hs.external_memory
      peak_malloced_memory := hs.peak_malloced_memory
      number_of_native_contexts := hs.number_of_native_contexts
      number_of_detached_contexts := hs.number_of_detached_contexts }

/-! ## Contexts -/

/-- The all-null error record `{nullptr, nullptr, nullptr}`. -/
def nullError : RtnError := { msg := none, location := none, stack := none }

/-- The function `RunScript(ctx_ptr, source, origin)`; `source` and `origin` are the
buffers the two C strings point at. -/
def RunScript (eng : Engine) (ctx_ptr : m_ctx) (source origin : Bytes) : Exec RtnValue := do
  perform (.contextScope ctx_ptr) ()
  let src ← ToLocalChecked (NewFromUtf8 source (-1))
  let ogn ← ToLocalChecked (NewFromUtf8 origin (-1))
  let script ← perform (.compile ctx_ptr src ogn) (eng.Compile ctx_ptr src ogn)
  match script.result with
  | none => do
    let error ← ExceptionError eng script.caught ctx_ptr.iso ctx_ptr
    pure { value := none, error := error }
  | some compiled => do
    let result ← perform (.run ctx_ptr compiled) (eng.Run ctx_ptr compiled)
    match result.result with
    | none => do
      let error ← ExceptionError eng result.caught ctx_ptr.iso ctx_ptr
      pure { value := none, error := error }
    | some res =>
      pure { value := some { ptr := res, ctx_ptr := ctx_ptr }, error := nullError }

/-- The function `Global(ctx_ptr)`. -/
def Global (eng : Engine) (ctx_ptr : m_ctx) : Exec m_value := do
  perform (.contextScope ctx_ptr) ()
  let g ← perform (.global ctx_ptr) (eng.Global ctx_ptr)
  pure { ptr := g, ctx_ptr := ctx_ptr }

/-- The function `ContextCreate(ctx_ptr, val)`. -/
def ContextCreate (ctx_ptr : m_ctx) (val : Value) : Exec m_value := do
  perform (.contextScope ctx_ptr) ()
  match val.Type_ with
  | .tBOOL => pure { ptr := .boolean (val.Bool_ == 1), ctx_ptr := ctx_ptr }
  | .tFLOAT64 => pure { ptr := .number (.float64 val.Float64), ctx_ptr := ctx_ptr }
  | .tINT64 => pure { ptr := .number (.ofInt64 val.Int64), ctx_ptr := ctx_ptr }
  | .tSTRING => do
    let str ← ToLocalChecked (NewFromUtf8 val.Data val.Len)
    pure { ptr := str, ctx_ptr := ctx_ptr }
  | .tUNDEFINED => pure { ptr := .undefined, ctx_ptr := ctx_ptr }

/-- The function `ContextDispose(ptr)`; its second null test, on the cast pointer,
repeats the first. -/
def ContextDispose (ptr : ContextPtr) : Exec Unit :=
  match ptr with
  | none => pure ()
  | some ctx => do
    perform (.contextReset ctx) ()
    perform (.deleteContext ctx) ()

/-! ## Values -/

/-- The function `ValueGet(ptr, field)`. -/
def ValueGet (eng : Engine) (ptr : m_value) (field : Bytes) : Exec RtnValue := do
  perform (.contextScope ptr.ctx_ptr) ()
  let object_val := ptr.ptr
  if !object_val.IsObject then
    pure { value := none,
           error := { msg := CopyString (ascii "Not an object"), location := none, stack := none } }
  else do
    let object ← ToLocalChecked (ToObject object_val)
    let key ← ToLocalChecked (NewFromUtf8 field (-1))
    let value ← perform (.get ptr.ctx_ptr object key) (eng.Get ptr.ctx_ptr object key)
    let local_value ← ToLocalChecked value.result
    pure { value := some { ptr := local_value, ctx_ptr := ptr.ctx_ptr }, error := nullError }

/-- The function `ValueSet(ptr, field, valueptr)`. -/
def ValueSet (eng : Engine) (ptr : m_value) (field : Bytes) (valueptr : m_value) :
    Exec RtnError := do
  perform (.contextScope ptr.ctx_ptr) ()
  let object_val := ptr.ptr
  if !object_val.IsObject then
    pure { msg := CopyString (ascii "Not an object"), location := none, stack := none }
  else do
    let object ← ToLocalChecked (ToObject object_val)
    let value := valueptr.ptr
    let key ← ToLocalChecked (NewFromUtf8 field (-1))
    let res ← perform (.set ptr.ctx_ptr object key value) (eng.Set ptr.ctx_ptr object key value)
    match res.result with
    | none => ExceptionError eng res.caught ptr.ctx_ptr.iso ptr.ctx_ptr
    | some false => ExceptionError eng res.caught ptr.ctx_ptr.iso ptr.ctx_ptr
    | some true => pure nullError

/-- The loop `for (i = 0; i < argc; i++) argv[i] = argv_ptr[i]->ptr.Get(isolate)`:
the engine values of the first `argc` handles.  Reading past the end of the array of the
caller gives `none`. -/
def castArgs : Nat → List m_value → Option (List JsValue)
  | 0, _ => some []
  | _ + 1, [] => none
  | n + 1, p :: ps => (castArgs n ps).map (fun rest => p.ptr :: rest)

/-- The function `ValueCall(func_ptr, self_ptr, argc, argv_ptr)`; `argv_ptr` is the
array of the caller.  A negative `argc` makes `new[]` throw, which aborts the process; an
array shorter than `argc` is read out of bounds. -/
def ValueCall (eng : Engine) (func_ptr : m_value) (self_ptr : ValuePtr) (argc : Int)
    (argv_ptr : List m_value) : Exec RtnValue := do
  perform (.contextScope func_ptr.ctx_ptr) ()
  let func_val := func_ptr.ptr
  if !func_val.IsFunction then
    pure { value := none,
           error := { msg := CopyString (ascii "Not a function"), location := none, stack := none } }
  else do
    let func := func_val
    let self ← (match self_ptr with
      | none => perform (.global func_ptr.ctx_ptr) (eng.Global func_ptr.ctx_ptr)
      | some s => pure s.ptr : Exec JsValue)
    if argc < 0 then fatal
    else do
      let argv ← (match castArgs argc.toNat argv_ptr with
        | some a => pure a
        | none => undefinedBehaviour : Exec (List JsValue))
      let result ← perform (.call func_ptr.ctx_ptr func self argv)
        (eng.Call func_ptr.ctx_ptr func self argv)
      match result.result with
      | none => do
        let error ← ExceptionError eng result.caught func_ptr.ctx_ptr.iso func_ptr.ctx_ptr
        pure { value := none, error := error }
      | some res =>
        pure { value := some { ptr := res, ctx_ptr := func_ptr.ctx_ptr }, error := nullError }

/-- The function `ValueDispose(ptr)`: `delete` on a null pointer does nothing. -/
def ValueDispose (ptr : ValuePtr) : Exec Unit :=
  match ptr with
  | none => pure ()
  | some val => perform (.deleteValue val) ()

/-- The function `ValueToString(ptr)`. -/
def ValueToString (eng : Engine) (ptr : m_value) : Exec CharPtr := do
  perform (.contextScope ptr.ctx_ptr) ()
  let value := ptr.ptr
  let utf8 := Utf8Value.ofValue eng (some value)
  pure (CopyStringUtf8Value utf8)

/-! ## Sample data for the concrete instances -/

/-- A capture scope in which nothing is pending. -/
def quietScope : TryCatch :=
  { hasTerminated := false, exception := none, message := none, stackTrace := none }

/-- A context of isolate 1. -/
def sampleCtx : m_ctx := { ptr := 7, iso := 1 }

/-- An engine whose operations all succeed with `undefined`. -/
def calmEngine : Engine where
  ToString := fun _ => some (ascii "[object Object]")
  Compile := fun _ _ _ => ⟨some 0, quietScope⟩
  Run := fun _ _ => ⟨some .undefined, quietScope⟩
  Global := fun _ => .object 0
  Get := fun _ _ _ => ⟨some .undefined, quietScope⟩
  Set := fun _ _ _ _ => ⟨some true, quietScope⟩
  Call := fun _ _ _ _ => ⟨some .undefined, quietScope⟩
  GetHeapStatistics := fun _ => ⟨1, 2, 3, 4, 5, 6, 7, 8, 9, 10, 11⟩

/-- A capture scope after a termination request, still holding an exception, a message
and a stack trace. -/
def terminatedScope : TryCatch :=
  { hasTerminated := true,
    exception := some (.string (ascii "boom")),
    message := some { resourceName := some (.string (ascii "a.js")),
                      lineNumber := some 3, startColumn := some 0 },
    stackTrace := some (.string (ascii "at a.js:3:1")) }

/-- A capture scope after an error thrown at line 3, column 0 of a.js. -/
def failedScope : TryCatch :=
  { hasTerminated := false,
    exception := some (.string (ascii "Error: x")),
    message := some { resourceName := some (.string (ascii "a.js")),
                      lineNumber := some 3, startColumn := some 0 },
    stackTrace := some (.string (ascii "Error: x at a.js:3:1")) }

/-- A capture scope after a compile error: there is no stack trace. -/
def syntaxErrorScope : TryCatch :=
  { hasTerminated := false,
    exception := some (.string (ascii "SyntaxError: Unexpected end of input")),
    message := some { resourceName := some (.string (ascii "a.js")),
                      lineNumber := some 1, startColumn := some 3 },
    stackTrace := none }

/-- An engine in which compilation fails. -/
def syntaxErrorEngine : Engine :=
  { calmEngine with Compile := fun _ _ _ => ⟨none, syntaxErrorScope⟩ }

/-- A capture scope holding a thrown empty string. -/
def emptyThrowScope : TryCatch :=
  { hasTerminated := false,
    exception := some (.string []),
    message := some { resourceName := some (.string (ascii "a.js")),
                      lineNumber := some 1, startColumn := some 0 },
    stackTrace := none }

/-- An engine whose property write runs a setter that throws the empty string. -/
def emptyThrowEngine : Engine :=
  { calmEngine with Set := fun _ _ _ _ => ⟨none, emptyThrowScope⟩ }

/-- A capture scope holding an error thrown by a getter. -/
def getterThrowScope : TryCatch :=
  { hasTerminated := false,
    exception := some (.string (ascii "Error: e")),
    message := some { resourceName := some (.string (ascii "a.js")),
                      lineNumber := some 1, startColumn := some 12 },
    stackTrace := some (.string (ascii "Error: e at get x (a.js:1:13)")) }

/-- An engine in which reading a property runs a getter that throws, so that the read
reports no result. -/
def getterThrowEngine : Engine :=
  { calmEngine with Get := fun _ _ _ => ⟨none, getterThrowScope⟩ }

/-- A capture scope holding a thrown string that consists of one NUL character. -/
def nulThrowScope : TryCatch :=
  { hasTerminated := false,
    exception := some (.string [0]),
    message := some { resourceName := some (.string (ascii "a.js")),
                      lineNumber := some 1, startColumn := some 0 },
    stackTrace := none }

/-- A capture scope whose message has an empty resource name and answers neither the
line nor the column query. -/
def anonymousScope : TryCatch :=
  { hasTerminated := false,
    exception := some (.string (ascii "Error: x")),
    message := some { resourceName := some (.string []),
                      lineNumber := none, startColumn := none },
    stackTrace := none }

/-! ## Executions: unfolding lemmas -/

theorem Exec.bind_eq {α β : Type} (x : Exec α) (f : α → Exec β) : x >>= f = x.andThen f := rfl

theorem Exec.pure_eq {α : Type} (a : α) : (pure a : Exec α) = ⟨[], .returned a⟩ := rfl

theorem Exec.perform_andThen {α β : Type} (c : EngineCall) (a : α) (f : α → Exec β) :
    (perform c a).andThen f = ⟨c :: (f a).calls, (f a).outcome⟩ := rfl

theorem Exec.returned_andThen {α β : Type} (l : List EngineCall) (a : α) (f : α → Exec β) :
    (Exec.mk l (.returned a)).andThen f = ⟨l ++ (f a).calls, (f a).outcome⟩ := rfl

theorem Exec.andThen_map {α β : Type} (x : Exec α) (f : α → β) :
    x.andThen (fun a => ⟨[], .returned (f a)⟩) = ⟨x.calls, x.outcome.map f⟩ := by
  rcases x with ⟨l, o⟩
  cases o <;> simp [Exec.andThen, Outcome.map]

/-! ## Strings: lemmas -/

/-- A buffer without a NUL byte reads as itself. -/
theorem cText_eq_self (b : Bytes) (h : (0 : UInt8) ∉ b) : cText b = b := by
  unfold cText
  rw [List.takeWhile_eq_self_iff]
  intro x hx
  have : x ≠ 0 := fun h0 => h (h0 ▸ hx)
  simpa using this

/-- Adding one to an `int` below its maximum does not wrap. -/
theorem wrapInt32_succ (c : Int) (h : -2147483648 ≤ c ∧ c < 2147483647) :
    wrapInt32 (c + 1) = c + 1 := by
  unfold wrapInt32
  omega

/-- The copy of a converted text is null exactly when its length is zero. -/
theorem CopyStringUtf8Value_ne_none (u : Utf8Value) :
    CopyStringUtf8Value u ≠ none ↔ u.length ≠ 0 := by
  rcases u with ⟨str⟩
  cases str with
  | none => simp [CopyStringUtf8Value, Utf8Value.length]
  | some buf =>
    by_cases hb : buf.length = 0 <;> simp [CopyStringUtf8Value, Utf8Value.length, CopyString, hb]

/-- The argument loop over a whole array yields the engine values in order. -/
theorem castArgs_length (argv_ptr : List m_value) :
    castArgs argv_ptr.length argv_ptr = some (argv_ptr.map (fun p => p.ptr)) := by
  induction argv_ptr with
  | nil => rfl
  | cons p ps ih => simp [castArgs, ih]

/-! ## The exception marshaler: lemmas -/

/-- Composing the location only queries the capture scope. -/
theorem ExceptionLocation_calls (eng : Engine) (tc : TryCatch) :
    ∀ c ∈ (ExceptionLocation eng tc).calls, c.isCaptureRead = true := by
  unfold ExceptionLocation
  rcases tc with ⟨t, e, m, st⟩
  cases m with
  | none => simp [perform, bind, Exec.andThen, pure, EngineCall.isCaptureRead]
  | some m =>
    rcases m with ⟨rn, l, c⟩
    cases h : (Utf8Value.ofValue eng rn).str <;>
      simp [perform, bind, Exec.andThen, pure, EngineCall.isCaptureRead, h, undefinedBehaviour]

/-- The marshaler only enters the isolate scope and queries the capture scope. -/
theorem ExceptionError_calls (eng : Engine) (tc : TryCatch) (iso : Nat) (ctx : m_ctx) :
    ∀ c ∈ (ExceptionError eng tc iso ctx).calls, c.isCaptureRead = true := by
  have hl := ExceptionLocation_calls eng tc
  unfold ExceptionError
  cases ht : tc.hasTerminated
  · cases ho : (ExceptionLocation eng tc).outcome <;>
      simp only [perform, bind, Exec.andThen, pure, ht, ho, List.mem_append, List.mem_cons,
        List.mem_singleton, List.not_mem_nil, or_false, false_or, Bool.false_eq_true, if_false] <;>
      intro a ha <;>
      rcases ha with rfl | rfl | rfl | ha <;> try rfl
    all_goals first
      | exact hl a ha
      | (rcases ha with ha | rfl
         · exact hl a ha
         · rfl)
  · simp [perform, bind, Exec.andThen, pure, EngineCall.isCaptureRead, ht]

/-- The marshaler on a terminated scope. -/
theorem ExceptionError_of_terminated (eng : Engine) (tc : TryCatch) (iso : Nat) (ctx : m_ctx)
    (h : tc.hasTerminated = true) :
    ExceptionError eng tc iso ctx =
      ⟨[.isolateScope iso, .hasTerminated],
       .returned { msg := some terminatedMsg, location := none, stack := none }⟩ := by
  simp [ExceptionError, perform, bind, Exec.andThen, pure, h, CopyString]

/-- The marshaler on a scope that is not terminated, in terms of its location part. -/
theorem ExceptionError_running (eng : Engine) (tc : TryCatch) (iso : Nat) (ctx : m_ctx)
    (h : tc.hasTerminated = false) :
    ExceptionError eng tc iso ctx =
      ⟨[.isolateScope iso, .hasTerminated, .exception] ++
         ((ExceptionLocation eng tc).andThen (fun loc => perform .stackTrace loc)).calls,
       (ExceptionLocation eng tc).outcome.map (fun loc =>
         { msg := CopyStringUtf8Value (Utf8Value.ofValue eng tc.exception),
           location := loc,
           stack := (match tc.stackTrace with
             | some st => CopyStringUtf8Value (Utf8Value.ofValue eng (some st))
             | none => none) })⟩ := by
  cases ho : (ExceptionLocation eng tc).outcome <;>
    simp [ExceptionError, Exec.bind_eq, Exec.pure_eq, Exec.perform_andThen, h, ho,
      Exec.andThen, Outcome.map, perform]

/-- The msg of a marshaled record is non-null exactly when the scope is terminated or
the exception converts to a text of non-zero length. -/
theorem ExceptionError_msg (eng : Engine) (tc : TryCatch) (iso : Nat) (ctx : m_ctx)
    (r : RtnError) (h : (ExceptionError eng tc iso ctx).outcome = .returned r) :
    r.msg ≠ none ↔
      (tc.hasTerminated = true ∨ (Utf8Value.ofValue eng tc.exception).length ≠ 0) := by
  cases ht : tc.hasTerminated
  · rw [ExceptionError_running eng tc iso ctx ht] at h
    cases ho : (ExceptionLocation eng tc).outcome <;> simp [ho, Outcome.map] at h
    subst h
    simpa using CopyStringUtf8Value_ne_none (Utf8Value.ofValue eng tc.exception)
  · rw [ExceptionError_of_terminated eng tc iso ctx ht] at h
    simp at h
    subst h
    simp

/-- The marshaler returns whenever the resource name of the message, if there is a
message, converts to a text. -/
theorem ExceptionError_returns (eng : Engine) (tc : TryCatch) (iso : Nat) (ctx : m_ctx)
    (h : ∀ m, tc.message = some m → (Utf8Value.ofValue eng m.resourceName).str ≠ none) :
    ∃ r, (ExceptionError eng tc iso ctx).outcome = .returned r := by
  cases ht : tc.hasTerminated
  · rw [ExceptionError_running eng tc iso ctx ht]
    have hloc : ∃ loc, (ExceptionLocation eng tc).outcome = .returned loc := by
      cases hm : tc.message with
      | none =>
        exact ⟨none, by simp [ExceptionLocation, Exec.bind_eq, Exec.pure_eq, perform, hm,
          Exec.andThen]⟩
      | some m =>
        rcases m with ⟨rn, l, c⟩
        have hb := h _ hm
        simp only [] at hb
        obtain ⟨buf, hbuf⟩ := Option.ne_none_iff_exists'.mp hb
        cases l <;> cases c <;>
          simp [ExceptionLocation, Exec.bind_eq, Exec.pure_eq, perform, hm, hbuf,
            CopyString, Exec.andThen]
    obtain ⟨loc, hloc⟩ := hloc
    simp [hloc, Outcome.map]
  · rw [ExceptionError_of_terminated eng tc iso ctx ht]
    exact ⟨_, rfl⟩

/-- With a message object whose resource name converts to a text, the location part
returns a non-null location. -/
theorem ExceptionLocation_of_message (eng : Engine) (tc : TryCatch) (m : Message)
    (buf : Bytes) (hm : tc.message = some m)
    (hb : (Utf8Value.ofValue eng m.resourceName).str = some buf) :
    ∃ loc, (ExceptionLocation eng tc).outcome = .returned (some loc) := by
  rcases m with ⟨rn, l, c⟩
  simp only [] at hb
  cases l <;> cases c <;>
    simp [ExceptionLocation, Exec.bind_eq, Exec.pure_eq, perform, hm, hb,
      CopyString, Exec.andThen]

/-! ## The claims -/

/-- Claim C1: for every capture scope whose `HasTerminated()` is true, whatever its
exception value, message object and stack trace are, `ExceptionError` returns the
record whose msg is exactly the fixed termination string and whose location and stack
are null.  The only engine operations it performs are entering the isolate scope and
the `HasTerminated` query: the exception value, the message object and the stack trace
are not read. -/
theorem ExceptionError_terminated (eng : Engine) (try_catch : TryCatch) (iso : Nat)
    (ctx : m_ctx) (h : try_catch.hasTerminated = true) :
    ExceptionError eng try_catch iso ctx =
        ⟨[.isolateScope iso, .hasTerminated],
         .returned
           { msg := some (ascii "ExecutionTerminated: script execution has been terminated"),
             location := none, stack := none }⟩
      ∧ EngineCall.exception ∉ (ExceptionError eng try_catch iso ctx).calls
      ∧ EngineCall.message ∉ (ExceptionError eng try_catch iso ctx).calls
      ∧ EngineCall.stackTrace ∉ (ExceptionError eng try_catch iso ctx).calls := by
  rw [ExceptionError_of_terminated eng try_catch iso ctx h]
  simp [terminatedMsg]

/-- Instance of C1 at a terminated scope that still holds an exception, a message and a
stack trace. -/
theorem ExceptionError_terminated_witness :
    terminatedScope.hasTerminated = true ∧
    (ExceptionError calmEngine terminatedScope 1 sampleCtx =
        ⟨[.isolateScope 1, .hasTerminated],
         .returned
           { msg := some (ascii "ExecutionTerminated: script execution has been terminated"),
             location := none, stack := none }⟩
      ∧ EngineCall.exception ∉ (ExceptionError calmEngine terminatedScope 1 sampleCtx).calls
      ∧ EngineCall.message ∉ (ExceptionError calmEngine terminatedScope 1 sampleCtx).calls
      ∧ EngineCall.stackTrace ∉ (ExceptionError calmEngine terminatedScope 1 sampleCtx).calls) :=
  ⟨rfl, ExceptionError_terminated calmEngine terminatedScope 1 sampleCtx rfl⟩

/-- Claim C2: on a receiver that is not an object, `ValueGet` returns a null value
handle with the error whose msg is "Not an object" and whose location and stack are
null, and `ValueSet` returns that same error; on a callee that is not a function,
`ValueCall` returns a null value handle and the error whose msg is "Not a function"
with null location and stack.  In all three the only engine operation is entering the
context scope: no property read, property write or invocation is performed. -/
theorem type_violation_error (eng : Engine) (ptr valueptr func_ptr : m_value)
    (field : Bytes) (self_ptr : ValuePtr) (argc : Int) (argv_ptr : List m_value)
    (hobj : ptr.ptr.IsObject = false) (hfun : func_ptr.ptr.IsFunction = false) :
    ValueGet eng ptr field =
        ⟨[.contextScope ptr.ctx_ptr],
         .returned { value := none,
                     error := { msg := some (ascii "Not an object"),
                                location := none, stack := none } }⟩
      ∧ ValueSet eng ptr field valueptr =
        ⟨[.contextScope ptr.ctx_ptr],
         .returned { msg := some (ascii "Not an object"), location := none, stack := none }⟩
      ∧ ValueCall eng func_ptr self_ptr argc argv_ptr =
        ⟨[.contextScope func_ptr.ctx_ptr],
         .returned { value := none,
                     error := { msg := some (ascii "Not a function"),
                                location := none, stack := none } }⟩ := by
  refine ⟨?_, ?_, ?_⟩
  · simp [ValueGet, perform, bind, Exec.andThen, pure, hobj, CopyString]
  · simp [ValueSet, perform, bind, Exec.andThen, pure, hobj, CopyString]
  · simp [ValueCall, perform, bind, Exec.andThen, pure, hfun, CopyString]

/-- Instance of C2: a number as receiver and the string "f" as callee. -/
theorem type_violation_error_witness :
    (JsValue.number (.ofInt64 5)).IsObject = false
      ∧ (JsValue.string (ascii "f")).IsFunction = false
      ∧ ValueGet calmEngine ⟨.number (.ofInt64 5), sampleCtx⟩ (ascii "x") =
        ⟨[.contextScope sampleCtx],
         .returned { value := none,
                     error := { msg := some (ascii "Not an object"),
                                location := none, stack := none } }⟩
      ∧ ValueSet calmEngine ⟨.number (.ofInt64 5), sampleCtx⟩ (ascii "x")
          ⟨.undefined, sampleCtx⟩ =
        ⟨[.contextScope sampleCtx],
         .returned { msg := some (ascii "Not an object"), location := none, stack := none }⟩
      ∧ ValueCall calmEngine ⟨.string (ascii "f"), sampleCtx⟩ none 0 [] =
        ⟨[.contextScope sampleCtx],
         .returned { value := none,
                     error := { msg := some (ascii "Not a function"),
                                location := none, stack := none } }⟩ :=
  ⟨rfl, rfl,
   type_violation_error calmEngine ⟨.number (.ofInt64 5), sampleCtx⟩ ⟨.undefined, sampleCtx⟩
     ⟨.string (ascii "f"), sampleCtx⟩ (ascii "x") none 0 [] rfl rfl⟩

/-- Claim C3: for every context, source and origin label, `RunScript` returns a
non-null value handle exactly when both the compile step and the run step report a
result; in that case the engine operations are the scope entry, the compilation and the
run, the value wraps the run result and is bound to the given context, and the error
record is all-null.  If compilation reports no result the script is never run, the
value handle is null and the error is the output of `ExceptionError` on the capture
scope left by the compilation; if the run reports no result the value handle is null
and the error is the output of `ExceptionError` on the capture scope left by the run. -/
theorem RunScript_pairing (eng : Engine) (ctx : m_ctx) (source origin : Bytes) :
    let src := JsValue.string (cText source)
    let ogn := JsValue.string (cText origin)
    let compiled := eng.Compile ctx src ogn
    ((∃ calls v e, RunScript eng ctx source origin = ⟨calls, .returned ⟨some v, e⟩⟩) ↔
        ∃ s res, compiled.result = some s ∧ (eng.Run ctx s).result = some res)
      ∧ (∀ s res, compiled.result = some s → (eng.Run ctx s).result = some res →
          RunScript eng ctx source origin =
            ⟨[.contextScope ctx, .compile ctx src ogn, .run ctx s],
             .returned { value := some { ptr := res, ctx_ptr := ctx },
                         error := { msg := none, location := none, stack := none } }⟩)
      ∧ (compiled.result = none →
          RunScript eng ctx source origin =
            ⟨[.contextScope ctx, .compile ctx src ogn] ++
               (ExceptionError eng compiled.caught ctx.iso ctx).calls,
             (ExceptionError eng compiled.caught ctx.iso ctx).outcome.map
               (fun e => { value := none, error := e })⟩
          ∧ ∀ s, EngineCall.run ctx s ∉ (RunScript eng ctx source origin).calls)
      ∧ (∀ s, compiled.result = some s → (eng.Run ctx s).result = none →
          RunScript eng ctx source origin =
            ⟨[.contextScope ctx, .compile ctx src ogn, .run ctx s] ++
               (ExceptionError eng (eng.Run ctx s).caught ctx.iso ctx).calls,
             (ExceptionError eng (eng.Run ctx s).caught ctx.iso ctx).outcome.map
               (fun e => { value := none, error := e })⟩) := by
  intro src ogn compiled
  have hfail : compiled.result = none →
      RunScript eng ctx source origin =
        ⟨[.contextScope ctx, .compile ctx src ogn] ++
           (ExceptionError eng compiled.caught ctx.iso ctx).calls,
         (ExceptionError eng compiled.caught ctx.iso ctx).outcome.map
           (fun e => { value := none, error := e })⟩ := by
    intro hc
    have hc2 : (eng.Compile ctx (JsValue.string (cText source))
        (JsValue.string (cText origin))).result = none := hc
    simp [RunScript, Exec.bind_eq, Exec.pure_eq, Exec.perform_andThen, Exec.returned_andThen,
      Exec.andThen_map, ToLocalChecked, NewFromUtf8, hc2, src, ogn, compiled]
  have hrunfail : ∀ s, compiled.result = some s → (eng.Run ctx s).result = none →
      RunScript eng ctx source origin =
        ⟨[.contextScope ctx, .compile ctx src ogn, .run ctx s] ++
           (ExceptionError eng (eng.Run ctx s).caught ctx.iso ctx).calls,
         (ExceptionError eng (eng.Run ctx s).caught ctx.iso ctx).outcome.map
           (fun e => { value := none, error := e })⟩ := by
    intro s hc hr
    have hc2 : (eng.Compile ctx (JsValue.string (cText source))
        (JsValue.string (cText origin))).result = some s := hc
    simp [RunScript, Exec.bind_eq, Exec.pure_eq, Exec.perform_andThen, Exec.returned_andThen,
      Exec.andThen_map, ToLocalChecked, NewFromUtf8, hc2, hr, src, ogn]
  have hok : ∀ s res, compiled.result = some s → (eng.Run ctx s).result = some res →
      RunScript eng ctx source origin =
        ⟨[.contextScope ctx, .compile ctx src ogn, .run ctx s],
         .returned { value := some { ptr := res, ctx_ptr := ctx },
                     error := { msg := none, location := none, stack := none } }⟩ := by
    intro s res hc hr
    have hc2 : (eng.Compile ctx (JsValue.string (cText source))
        (JsValue.string (cText origin))).result = some s := hc
    simp [RunScript, Exec.bind_eq, Exec.pure_eq, Exec.perform_andThen, Exec.returned_andThen,
      Exec.andThen_map, ToLocalChecked, NewFromUtf8, hc2, hr, src, ogn, nullError]
  refine ⟨?_, hok, ?_, hrunfail⟩
  · constructor
    · rintro ⟨calls, v, e, h⟩
      cases hc : compiled.result with
      | none =>
        rw [hfail hc] at h
        cases ho : (ExceptionError eng compiled.caught ctx.iso ctx).outcome <;>
          simp [ho, Outcome.map] at h
      | some s =>
        cases hr : (eng.Run ctx s).result with
        | none =>
          rw [hrunfail s hc hr] at h
          cases ho : (ExceptionError eng (eng.Run ctx s).caught ctx.iso ctx).outcome <;>
            simp [ho, Outcome.map] at h
        | some res => exact ⟨s, res, rfl, hr⟩
    · rintro ⟨s, res, hc, hr⟩
      exact ⟨_, _, _, hok s res hc hr⟩
  · intro hc
    refine ⟨hfail hc, ?_⟩
    intro s hmem
    rw [hfail hc] at hmem
    simp only [List.mem_append, List.mem_cons, List.mem_singleton, List.not_mem_nil,
      or_false] at hmem
    rcases hmem with (h | h) | h
    · cases h
    · cases h
    · have := ExceptionError_calls eng compiled.caught ctx.iso ctx _ h
      simp [EngineCall.isCaptureRead] at this

/-- Instance of C3: a script that compiles and runs, and a script that does not
compile. -/
theorem RunScript_pairing_witness :
    RunScript calmEngine sampleCtx (ascii "1 + 1") (ascii "a.js") =
        ⟨[.contextScope sampleCtx,
          .compile sampleCtx (.string (cText (ascii "1 + 1"))) (.string (cText (ascii "a.js"))),
          .run sampleCtx 0],
         .returned { value := some { ptr := .undefined, ctx_ptr := sampleCtx },
                     error := { msg := none, location := none, stack := none } }⟩
      ∧ (syntaxErrorEngine.Compile sampleCtx (.string (cText (ascii "1 +")))
            (.string (cText (ascii "a.js")))).result = none
      ∧ ∀ s, EngineCall.run sampleCtx s ∉
          (RunScript syntaxErrorEngine sampleCtx (ascii "1 +") (ascii "a.js")).calls :=
  ⟨(RunScript_pairing calmEngine sampleCtx (ascii "1 + 1") (ascii "a.js")).2.1 0 .undefined
      rfl rfl,
   rfl,
   ((RunScript_pairing syntaxErrorEngine sampleCtx (ascii "1 +") (ascii "a.js")).2.2.1 rfl).2⟩

/-- Claim C4: for every failure that is not a termination and whose message object is
available, with resource name text `buf` (read as a C string), the location is that
text, followed by ":" and the decimal line iff the line query succeeds, followed by ":"
and the decimal of column + 1 iff the column query succeeds (the column being an `int`
below its maximum); a failed query only drops its suffix and the marshaler still
returns.  When no message object is available the location is null. -/
theorem ExceptionError_location (eng : Engine) (tc : TryCatch) (iso : Nat) (ctx : m_ctx)
    (hterm : tc.hasTerminated = false) :
    (∀ m buf, tc.message = some m → (Utf8Value.ofValue eng m.resourceName).str = some buf →
        (∀ c, m.startColumn = some c → -2147483648 ≤ c ∧ c < 2147483647) →
        ∃ calls r, ExceptionError eng tc iso ctx = ⟨calls, .returned r⟩ ∧
          r.location = some (cText buf
            ++ (match m.lineNumber with
                | some l => ascii ":" ++ decimal l
                | none => [])
            ++ (match m.startColumn with
                | some c => ascii ":" ++ decimal (c + 1)
                | none => [])))
      ∧ (tc.message = none →
        ∃ calls r, ExceptionError eng tc iso ctx = ⟨calls, .returned r⟩ ∧ r.location = none) := by
  constructor
  · intro m buf hm hb hc
    have hloc : (ExceptionLocation eng tc).outcome = .returned (some (cText buf
            ++ (match m.lineNumber with
                | some l => ascii ":" ++ decimal l
                | none => [])
            ++ (match m.startColumn with
                | some c => ascii ":" ++ decimal (c + 1)
                | none => []))) := by
      rcases m with ⟨rn, l, c⟩
      simp only [] at hb
      cases l <;> cases c <;>
        simp [ExceptionLocation, Exec.bind_eq, Exec.pure_eq, perform, hm, hb,
          CopyString, Exec.andThen]
      all_goals rw [wrapInt32_succ _ (hc _ rfl)]
    rw [ExceptionError_running eng tc iso ctx hterm, hloc]
    exact ⟨_, _, rfl, rfl⟩
  · intro hm
    have hloc : (ExceptionLocation eng tc).outcome = .returned none := by
      simp [ExceptionLocation, Exec.bind_eq, Exec.pure_eq, Exec.perform_andThen, hm]
    rw [ExceptionError_running eng tc iso ctx hterm, hloc]
    exact ⟨_, _, rfl, rfl⟩

/-- Instance of C4: resource name "a.js", line 3 and engine column 0 give the location
"a.js:3:1". -/
theorem ExceptionError_location_witness :
    failedScope.hasTerminated = false ∧
    ∃ calls r, ExceptionError calmEngine failedScope 1 sampleCtx = ⟨calls, .returned r⟩ ∧
      r.location = some (ascii "a.js:3:1") :=
  ⟨rfl, (ExceptionError_location calmEngine failedScope 1 sampleCtx rfl).1
    ⟨some (.string (ascii "a.js")), some 3, some 0⟩ (ascii "a.js") rfl rfl
    (fun c hc => by cases hc; decide)⟩

/-- Claim C5, refuted as stated: a property write on an object whose setter throws the
empty string reports no result, and `ValueSet` returns a record whose msg is null; the
record is told apart from the all-null record by its location only. -/
theorem ValueSet_failure_null_msg :
    (JsValue.object 1).IsObject = true
      ∧ (emptyThrowEngine.Set sampleCtx (.object 1) (.string (ascii "x")) .undefined).result
        = none
      ∧ ValueSet emptyThrowEngine ⟨.object 1, sampleCtx⟩ (ascii "x") ⟨.undefined, sampleCtx⟩ =
        ⟨[.contextScope sampleCtx,
          .set sampleCtx (.object 1) (.string (ascii "x")) .undefined,
          .isolateScope 1, .hasTerminated, .exception, .message, .resourceName, .message,
          .getLineNumber, .message, .getStartColumn, .stackTrace],
         .returned { msg := none, location := some (ascii "a.js:1:1"), stack := none }⟩ := by
  refine ⟨rfl, rfl, ?_⟩
  rfl

/-- Claim C5, amended: for every `ValueSet` call on an object receiver in which the
property write reports failure (no result, or `false`) and leaves its exception pending
in the capture scope (the scope reports termination, or holds a message object whose
resource name converts to a text), the engine operations are the scope entry and the
write followed by those of `ExceptionError`, and the call returns exactly the output of
`ExceptionError` on that scope, a record that is not all-null: at least one of msg and
location is non-null.  Its msg is non-null exactly when the scope reports termination
or the pending exception converts to a text of non-zero length. -/
theorem ValueSet_failure (eng : Engine) (ptr valueptr : m_value) (field : Bytes)
    (hobj : ptr.ptr.IsObject = true)
    (hfail : (eng.Set ptr.ctx_ptr ptr.ptr (.string (cText field)) valueptr.ptr).result
      ≠ some true)
    (hpending :
      (eng.Set ptr.ctx_ptr ptr.ptr (.string (cText field)) valueptr.ptr).caught.hasTerminated
          = true
        ∨ ∃ m buf,
          (eng.Set ptr.ctx_ptr ptr.ptr (.string (cText field)) valueptr.ptr).caught.message
              = some m
            ∧ (Utf8Value.ofValue eng m.resourceName).str = some buf) :
    let res := eng.Set ptr.ctx_ptr ptr.ptr (.string (cText field)) valueptr.ptr
    let marshaled := ExceptionError eng res.caught ptr.ctx_ptr.iso ptr.ctx_ptr
    ValueSet eng ptr field valueptr =
        ⟨[.contextScope ptr.ctx_ptr,
          .set ptr.ctx_ptr ptr.ptr (.string (cText field)) valueptr.ptr] ++ marshaled.calls,
         marshaled.outcome⟩
      ∧ (∃ r, (ValueSet eng ptr field valueptr).outcome = .returned r
          ∧ r ≠ { msg := none, location := none, stack := none }
          ∧ (r.msg ≠ none ∨ r.location ≠ none)
          ∧ (r.msg ≠ none ↔ (res.caught.hasTerminated = true ∨
              (Utf8Value.ofValue eng res.caught.exception).length ≠ 0))) := by
  intro res marshaled
  have heq : ValueSet eng ptr field valueptr =
      ⟨[.contextScope ptr.ctx_ptr,
        .set ptr.ctx_ptr ptr.ptr (.string (cText field)) valueptr.ptr] ++ marshaled.calls,
       marshaled.outcome⟩ := by
    cases hr : (eng.Set ptr.ctx_ptr ptr.ptr (.string (cText field)) valueptr.ptr).result with
    | none =>
      simp [ValueSet, Exec.bind_eq, Exec.pure_eq, Exec.perform_andThen,
        Exec.returned_andThen, ToLocalChecked, NewFromUtf8, ToObject, hobj, hr, marshaled, res]
    | some b =>
      cases b with
      | true => exact absurd hr hfail
      | false =>
        simp [ValueSet, Exec.bind_eq, Exec.pure_eq, Exec.perform_andThen,
          Exec.returned_andThen, ToLocalChecked, NewFromUtf8, ToObject, hobj, hr, marshaled,
          res]
  refine ⟨heq, ?_⟩
  have hsome : ∃ r, marshaled.outcome = .returned r ∧ (r.msg ≠ none ∨ r.location ≠ none) := by
    cases ht : res.caught.hasTerminated
    · rcases hpending with hT | ⟨m, buf, hm, hb⟩
      · exact absurd (ht.symm.trans hT) Bool.false_ne_true
      · obtain ⟨loc, hloc⟩ := ExceptionLocation_of_message eng res.caught m buf hm hb
        have hout : marshaled.outcome = .returned
            { msg := CopyStringUtf8Value (Utf8Value.ofValue eng res.caught.exception),
              location := some loc,
              stack := (match res.caught.stackTrace with
                | some st => CopyStringUtf8Value (Utf8Value.ofValue eng (some st))
                | none => none) } := by
          show (ExceptionError eng res.caught ptr.ctx_ptr.iso ptr.ctx_ptr).outcome = _
          rw [ExceptionError_running eng res.caught _ _ ht, hloc]
          rfl
        exact ⟨_, hout, Or.inr (by simp)⟩
    · have hout : marshaled.outcome = .returned
          { msg := some terminatedMsg, location := none, stack := none } := by
        show (ExceptionError eng res.caught ptr.ctx_ptr.iso ptr.ctx_ptr).outcome = _
        rw [ExceptionError_of_terminated eng res.caught _ _ ht]
      exact ⟨_, hout, Or.inl (by simp)⟩
  obtain ⟨r, hr, hnn⟩ := hsome
  refine ⟨r, by rw [heq]; exact hr, ?_, hnn, ExceptionError_msg eng _ _ _ r hr⟩
  intro hnull
  rcases hnn with h | h
  · exact h (by rw [hnull])
  · exact h (by rw [hnull])

/-- Instance of amended C5: a write whose setter throws the empty string returns a
record, reported through `ExceptionError`, whose msg or location is non-null. -/
theorem ValueSet_failure_witness :
    (JsValue.object 1).IsObject = true
      ∧ (emptyThrowEngine.Set sampleCtx (.object 1) (.string (cText (ascii "x")))
          .undefined).result ≠ some true
      ∧ (emptyThrowEngine.Set sampleCtx (.object 1) (.string (cText (ascii "x")))
          .undefined).caught.message
          = some ⟨some (.string (ascii "a.js")), some 1, some 0⟩
      ∧ ∃ r, (ValueSet emptyThrowEngine ⟨.object 1, sampleCtx⟩ (ascii "x")
            ⟨.undefined, sampleCtx⟩).outcome = .returned r
          ∧ r ≠ { msg := none, location := none, stack := none }
          ∧ (r.msg ≠ none ∨ r.location ≠ none) :=
  ⟨rfl, by decide, rfl,
   match (ValueSet_failure emptyThrowEngine ⟨.object 1, sampleCtx⟩ ⟨.undefined, sampleCtx⟩
      (ascii "x") rfl (by decide)
      (Or.inr ⟨⟨some (.string (ascii "a.js")), some 1, some 0⟩, ascii "a.js", rfl, rfl⟩)).2 with
   | ⟨r, hr, hne, hnn, _⟩ => ⟨r, hr, hne, hnn⟩⟩

/-- Claim C6, evaluated on the code: when the property read on an object reports no
result, `ValueGet` applies the checked unwrap to the empty handle, so after the scope
entry and the read the call ends in the fatal-error path instead of returning an empty
value with an all-null error. -/
theorem ValueGet_empty_read_is_fatal :
    (JsValue.object 1).IsObject = true
      ∧ (getterThrowEngine.Get sampleCtx (.object 1) (.string (ascii "x"))).result = none
      ∧ ValueGet getterThrowEngine ⟨.object 1, sampleCtx⟩ (ascii "x") =
        ⟨[.contextScope sampleCtx, .get sampleCtx (.object 1) (.string (ascii "x"))],
         .fatal⟩ :=
  ⟨rfl, rfl, rfl⟩

/-- Claim C7, refuted as stated: the valid UTF-8 string of the three bytes "a", NUL,
"b", created with length 3, comes back from `ValueToString` as the one byte "a". -/
theorem embedded_nul_is_truncated :
    utf8 "a\x00b" = [97, 0, 98]
      ∧ (ContextCreate sampleCtx
            { Type_ := .tSTRING, Data := [97, 0, 98], Len := 3, Bool_ := 0, Float64 := 0,
              Int64 := 0 } >>= ValueToString calmEngine).outcome
          = .returned (some [97])
      ∧ (some [97] : CharPtr) ≠ some [97, 0, 98] := by
  refine ⟨by decide, by decide, by decide⟩

/-- Claim C7, amended: for every context and every valid UTF-8 byte string `v` of
length `n`, `ContextCreate` uses `n` as the authoritative length (the engine string
holds all bytes of `v`, embedded NUL bytes included), and `ValueToString` of the
created value returns a null pointer when `n = 0` and otherwise the bytes of `v` before
its first NUL byte; so when `v` contains no NUL byte the returned text equals `v`. -/
theorem string_round_trip (eng : Engine) (ctx : m_ctx) (v : String) (val : Value)
    (hType : val.Type_ = .tSTRING) (hData : val.Data = utf8 v)
    (hLen : val.Len = (utf8 v).length) :
    ContextCreate ctx val =
        ⟨[.contextScope ctx], .returned { ptr := .string (utf8 v), ctx_ptr := ctx }⟩
      ∧ (ContextCreate ctx val >>= ValueToString eng) =
        ⟨[.contextScope ctx, .contextScope ctx],
         .returned (if (utf8 v).length = 0 then none else some (cText (utf8 v)))⟩
      ∧ ((0 : UInt8) ∉ utf8 v →
          (ContextCreate ctx val >>= ValueToString eng) =
            ⟨[.contextScope ctx, .contextScope ctx],
             .returned (if (utf8 v).length = 0 then none else some (utf8 v))⟩) := by
  have hcreate : ContextCreate ctx val =
      ⟨[.contextScope ctx], .returned { ptr := .string (utf8 v), ctx_ptr := ctx }⟩ := by
    simp [ContextCreate, Exec.bind_eq, Exec.pure_eq, Exec.perform_andThen,
      Exec.returned_andThen, ToLocalChecked, NewFromUtf8, hType, hData, hLen]
  have hround : (ContextCreate ctx val >>= ValueToString eng) =
      ⟨[.contextScope ctx, .contextScope ctx],
       .returned (if (utf8 v).length = 0 then none else some (cText (utf8 v)))⟩ := by
    rw [hcreate]
    by_cases h0 : (utf8 v).length = 0 <;>
      simp [ValueToString, Exec.bind_eq, Exec.pure_eq, Exec.perform_andThen,
        Exec.returned_andThen, Utf8Value.ofValue, CopyStringUtf8Value, Utf8Value.length,
        CopyString, h0]
  refine ⟨hcreate, hround, ?_⟩
  intro hnul
  rw [hround, cText_eq_self _ hnul]

/-- Instance of amended C7: the six bytes of "héllo" come back unchanged. -/
theorem string_round_trip_witness :
    (0 : UInt8) ∉ utf8 "héllo"
      ∧ (ContextCreate sampleCtx
          { Type_ := .tSTRING, Data := utf8 "héllo", Len := 6, Bool_ := 0, Float64 := 0,
            Int64 := 0 } >>= ValueToString calmEngine) =
        ⟨[.contextScope sampleCtx, .contextScope sampleCtx],
         .returned (some (utf8 "héllo"))⟩ :=
  ⟨by decide,
   (string_round_trip calmEngine sampleCtx "héllo"
      { Type_ := .tSTRING, Data := utf8 "héllo", Len := 6, Bool_ := 0, Float64 := 0,
        Int64 := 0 } rfl rfl (by decide)).2.2 (by decide)⟩

/-- Claim C8: `IsolateDispose`, `ContextDispose` and `ValueDispose` on a null pointer
return without performing any engine operation, and `IsolationGetHeapStatistics` on a
null pointer returns the record whose eleven counters are zero, without calling the
engine. -/
theorem null_safety (eng : Engine) :
    IsolateDispose none = ⟨[], .returned ()⟩
      ∧ ContextDispose none = ⟨[], .returned ()⟩
      ∧ ValueDispose none = ⟨[], .returned ()⟩
      ∧ IsolationGetHeapStatistics eng none =
        ⟨[], .returned { total_heap_size := 0, total_heap_size_executable := 0,
                         total_physical_size := 0, total_available_size := 0,
                         used_heap_size := 0, heap_size_limit := 0, malloced_memory := 0,
                         external_memory := 0, peak_malloced_memory := 0,
                         number_of_native_contexts := 0,
                         number_of_detached_contexts := 0 }⟩ :=
  ⟨rfl, rfl, rfl, rfl⟩

/-- Claim C9: for every function value, every optional receiver and every array of
`argc` value handles, `ValueCall` invokes the engine exactly once, on the function, with
the global object of the context of the function as receiver when `self_ptr` is null
and the engine value of the supplied receiver otherwise, and with the engine values of
`argv[0..argc-1]` in order as arguments.  When the invocation yields a result the
returned value handle wraps it, is bound to the context of the function, and the error
record is all-null; when it yields none the value handle is null and the error is the
output of `ExceptionError`. -/
theorem ValueCall_marshaling (eng : Engine) (func_ptr : m_value) (self_ptr : ValuePtr)
    (argv_ptr : List m_value) (hfun : func_ptr.ptr.IsFunction = true) :
    let ctx := func_ptr.ctx_ptr
    let self := (match self_ptr with
      | none => eng.Global ctx
      | some s => s.ptr)
    let argv := argv_ptr.map (fun p => p.ptr)
    let result := eng.Call ctx func_ptr.ptr self argv
    let run := ValueCall eng func_ptr self_ptr argv_ptr.length argv_ptr
    run.calls.filter EngineCall.isInvocation = [.call ctx func_ptr.ptr self argv]
      ∧ (∀ res, result.result = some res →
          run.outcome = .returned { value := some { ptr := res, ctx_ptr := ctx },
                                    error := { msg := none, location := none, stack := none } })
      ∧ (result.result = none →
          run.outcome = (ExceptionError eng result.caught ctx.iso ctx).outcome.map
            (fun e => { value := none, error := e })) := by
  intro ctx self argv result run
  have hargc : ¬ ((argv_ptr.length : Int) < 0) := by omega
  have hquiet : ∀ tc, ∀ a ∈ (ExceptionError eng tc ctx.iso ctx).calls,
      (match a with
        | EngineCall.call _ _ _ _ => true
        | _ => false) = false := by
    intro tc a ha
    have := ExceptionError_calls eng tc ctx.iso ctx a ha
    cases a <;> simp_all [EngineCall.isCaptureRead]
  cases self_ptr with
  | none =>
    cases hr : (eng.Call func_ptr.ctx_ptr func_ptr.ptr (eng.Global func_ptr.ctx_ptr)
        (argv_ptr.map (fun p => p.ptr))).result with
    | none =>
      have hr2 : result.result = none := hr
      simp [run, ValueCall, Exec.bind_eq, Exec.pure_eq, Exec.perform_andThen,
        Exec.returned_andThen, Exec.andThen_map, hfun, hargc, castArgs_length, hr, hr2,
        EngineCall.isInvocation, List.filter_cons, List.filter_append, ctx, self, argv, result]
      exact hquiet _
    | some res =>
      have hr2 : result.result = some res := hr
      simp [run, ValueCall, Exec.bind_eq, Exec.pure_eq, Exec.perform_andThen,
        Exec.returned_andThen, Exec.andThen_map, hfun, hargc, castArgs_length, hr, hr2,
        EngineCall.isInvocation, List.filter_cons, List.filter_append, ctx, self, argv, result,
        nullError]
  | some s =>
    cases hr : (eng.Call func_ptr.ctx_ptr func_ptr.ptr s.ptr
        (argv_ptr.map (fun p => p.ptr))).result with
    | none =>
      have hr2 : result.result = none := hr
      simp [run, ValueCall, Exec.bind_eq, Exec.pure_eq, Exec.perform_andThen,
        Exec.returned_andThen, Exec.andThen_map, hfun, hargc, castArgs_length, hr, hr2,
        EngineCall.isInvocation, List.filter_cons, List.filter_append, ctx, self, argv, result]
      exact hquiet _
    | some res =>
      have hr2 : result.result = some res := hr
      simp [run, ValueCall, Exec.bind_eq, Exec.pure_eq, Exec.perform_andThen,
        Exec.returned_andThen, Exec.andThen_map, hfun, hargc, castArgs_length, hr, hr2,
        EngineCall.isInvocation, List.filter_cons, List.filter_append, ctx, self, argv, result,
        nullError]

/-- Instance of C9: a function called without receiver on two arguments. -/
theorem ValueCall_marshaling_witness :
    (JsValue.function 3).IsFunction = true
      ∧ (ValueCall calmEngine ⟨.function 3, sampleCtx⟩ none 2
          [⟨.number (.ofInt64 1), sampleCtx⟩, ⟨.string (ascii "a"), sampleCtx⟩]).calls.filter
            EngineCall.isInvocation =
        [.call sampleCtx (.function 3) (.object 0)
          [.number (.ofInt64 1), .string (ascii "a")]] :=
  ⟨rfl,
   (ValueCall_marshaling calmEngine ⟨.function 3, sampleCtx⟩ none
      [⟨.number (.ofInt64 1), sampleCtx⟩, ⟨.string (ascii "a"), sampleCtx⟩] rfl).1⟩

/-- Claim C10, evaluated on the code: a thrown string that starts with a NUL character
gives a msg that is non-null and empty, and a message with an empty resource name that
answers neither the line nor the column query gives a location that is non-null and
empty. -/
theorem ExceptionError_empty_fields :
    (ExceptionError calmEngine nulThrowScope 1 sampleCtx).outcome =
        .returned { msg := some [], location := some (ascii "a.js:1:1"), stack := none }
      ∧ (ExceptionError calmEngine anonymousScope 1 sampleCtx).outcome =
        .returned { msg := some (ascii "Error: x"), location := some [], stack := none } := by
  refine ⟨by decide, by decide⟩

end V8go
